import Mathlib

/-!
Shallow embedding of the meditrack browser application (patient records,
SQL console, persistence helper) together with proofs of the behavioural
claims about it.  Each definition is translated from the corresponding
TypeScript source function; the theorems at the end settle the claims.
-/

set_option maxHeartbeats 1000000

namespace MediTrack

/-- A calendar date as the JS `Date` component accessors expose it:
`getFullYear`, `getMonth`, `getDate`.  Components are kept as integers so
that the subtractions in `calculateAge` behave exactly like JS number
subtraction on these values. -/
structure SimpleDate where
  year : Int
  month : Int
  day : Int
deriving DecidableEq, Repr

/-- `calculateAge` from `src/components/sql/SqlConsole.tsx` (identical in
`unnamed/part_000` and `unnamed/part_001`): age is the year difference,
decremented when the current month/day has not yet reached the birth
month/day.  `dob` is the parsed `dateOfBirth`, `today` the current date. -/
def calculateAge (dob today : SimpleDate) : Int :=
  let age := today.year - dob.year
  let monthDifference := today.month - dob.month
  if monthDifference < 0 ∨ (monthDifference = 0 ∧ today.day < dob.day) then
    age - 1
  else
    age

/-- The history update performed by `executeQuery`
(`setSqlHistory(prev => ...)` in `SqlConsole.tsx`): append the executed
`sql` only when it is not already present, then keep the last 10 entries
(`[...prev, sql].slice(-10)`).  JS `slice(-10)` keeps the final ten
elements (the whole list when shorter), which on lists is
`drop (length - 10)` with truncated subtraction. -/
def updateHistory (prev : List String) (sql : String) : List String :=
  if sql ∈ prev then
    prev
  else
    let newHistory := prev ++ [sql]
    newHistory.drop (newHistory.length - 10)

/-- The column reordering of `executeQuery` in `SqlConsole.tsx`: when both
`date_of_birth` and `gender` columns are present, remove any `age` entry
and splice `age` in right after `gender`; when only `date_of_birth` is
present, push `age` at the end; otherwise leave the columns alone.  The
source guards the splice by `genderIndex !== -1`; here `List.indexOf`
returns the length when the element is absent, so the guard is the
corresponding bounds check. -/
def reorderColumns (columns : List String) : List String :=
  if "date_of_birth" ∈ columns ∧ "gender" ∈ columns then
    let filtered := columns.filter (fun c => c ≠ "age")
    let genderIndex := filtered.indexOf "gender"
    if genderIndex < filtered.length then
      filtered.insertIdx (genderIndex + 1) "age"
    else
      filtered
  else if "date_of_birth" ∈ columns then
    columns ++ ["age"]
  else
    columns

/-- One stored row of the key-value persistence tables
(`form_persistence` and `sql_settings` in `src/lib/db.ts`): the
serialized value together with the `updated_at` timestamp. -/
structure StoredRow where
  value : String
  updatedAt : String
deriving DecidableEq, Repr

/-- A key-value table as an association list keyed by its primary key. -/
abbrev KVTable : Type := List (String × StoredRow)

/-- The observable contents of the embedded store that `saveToPGlite`
can touch: the `form_persistence` table (keyed by `form_id`) and the
`sql_settings` table (keyed by `key`). -/
structure StoreState where
  formPersistence : KVTable
  sqlSettings : KVTable
deriving DecidableEq

/-- `INSERT ... ON CONFLICT (pk) DO UPDATE`: replace the row of an
existing key in place, otherwise append a fresh row at the end. -/
def upsert (table : KVTable) (key value now : String) : KVTable :=
  match table with
  | [] => [(key, ⟨value, now⟩)]
  | (k, r) :: rest =>
    if k = key then (key, ⟨value, now⟩) :: rest
    else (k, r) :: upsert rest key value now

/-- `saveToPGlite` from `src/lib/db.ts`: with no database handle it
returns at once; the table name dispatches between the two upsert
statements and any other name falls through both branches without any
write.  The JS serialization step (`JSON.stringify` / `String`) is
external; `value` here is the resulting string. -/
def saveToPGlite (db : Option StoreState) (tableName key value now : String) :
    Option StoreState :=
  match db with
  | none => none
  | some s =>
    if tableName = "form_persistence" then
      some { s with formPersistence := upsert s.formPersistence key value now }
    else if tableName = "sql_settings" then
      some { s with sqlSettings := upsert s.sqlSettings key value now }
    else
      some s

/-- A table with the `updated_at` column projected away: the observable
state of a table "except for the timestamp". -/
def eraseTimes (table : KVTable) : List (String × String) :=
  table.map (fun p => (p.1, p.2.value))

/-- Keys of a key-value table. -/
def tableKeys (table : KVTable) : List String := table.map Prod.fst

/-- How many rows of the table carry the given primary key. -/
def countKey (table : KVTable) (key : String) : Nat :=
  table.countP (fun p => p.1 = key)

/-- The twelve fields of the patient registration form
(`patientFormSchema` in `src/components/patients/PatientForm.tsx`).
Fields the zod schema marks `.optional()` are `Option String` (absent =
`undefined`); the rest are plain strings. -/
structure PatientFormValues where
  firstName : String
  lastName : String
  dateOfBirth : String
  gender : String
  email : Option String
  phone : String
  address : String
  insuranceProvider : Option String
  insuranceNumber : Option String
  medicalConditions : String
  medications : String
  allergies : Option String
deriving DecidableEq, Repr

/-- The zod validation of `patientFormSchema`: every required field is
non-empty (`min(1)`); the optional email, when present and non-empty,
must be well-formed, which the embedding keeps abstract as a predicate
argument is not needed for any claim, so only presence of the text is
tracked here. -/
def validPatientForm (v : PatientFormValues) : Prop :=
  v.firstName ≠ "" ∧ v.lastName ≠ "" ∧ v.dateOfBirth ≠ "" ∧ v.gender ≠ "" ∧
  v.phone ≠ "" ∧ v.address ≠ "" ∧ v.medicalConditions ≠ "" ∧ v.medications ≠ ""

instance (v : PatientFormValues) : Decidable (validPatientForm v) := by
  unfold validPatientForm
  infer_instance

/-- The in-memory `Patient` object built inside `onSubmit`
(`PatientForm.tsx`): optional fields default to the empty string via
`|| ""`, and both timestamps are the single `now` captured before the
insert. -/
structure Patient where
  id : String
  firstName : String
  lastName : String
  dateOfBirth : String
  gender : String
  email : String
  phone : String
  address : String
  insuranceProvider : String
  insuranceNumber : String
  medicalConditions : String
  medications : String
  allergies : String
  createdAt : String
  updatedAt : String
deriving DecidableEq, Repr

/-- The construction of the `patient` object in `onSubmit`. -/
def mkPatient (id now : String) (v : PatientFormValues) : Patient :=
  { id := id
    firstName := v.firstName
    lastName := v.lastName
    dateOfBirth := v.dateOfBirth
    gender := v.gender
    email := v.email.getD ""
    phone := v.phone
    address := v.address
    insuranceProvider := v.insuranceProvider.getD ""
    insuranceNumber := v.insuranceNumber.getD ""
    medicalConditions := v.medicalConditions
    medications := v.medications
    allergies := v.allergies.getD ""
    createdAt := now
    updatedAt := now }

/-- `patientToSqlParams` from `src/lib/db.ts`: the fifteen positional
parameters of the patients INSERT, in column order
`id, first_name, ..., created_at, updated_at`. -/
def patientToSqlParams (patient : Patient) : List String :=
  [ patient.id
  , patient.firstName
  , patient.lastName
  , patient.dateOfBirth
  , patient.gender
  , patient.email
  , patient.phone
  , patient.address
  , patient.insuranceProvider
  , patient.insuranceNumber
  , patient.medicalConditions
  , patient.medications
  , patient.allergies
  , patient.createdAt
  , patient.updatedAt ]

/-- A change-bus notification as `broadcastChange` posts it
(`src/lib/db.ts`): a type tag and the optional payload, which for
`patient-added` is the new row id. -/
structure BroadcastMsg where
  type : String
  data : Option String
deriving DecidableEq, Repr

/-- The state touched by a form submission: the `patients` table (each
row is its list of column values, the first being the primary key `id`)
and the log of published change notifications. -/
structure SubmitState where
  patients : List (List String)
  broadcasts : List BroadcastMsg
deriving DecidableEq

/-- The patients INSERT: the store rejects a duplicate primary key
(first column) with an error, otherwise appends the new row. -/
def insertPatient (table : List (List String)) (params : List String) :
    Except String (List (List String)) :=
  if table.any (fun row => row.head? = params.head?) then
    Except.error "duplicate key value violates unique constraint"
  else
    Except.ok (table ++ [params])

/-- `onSubmit` from `PatientForm.tsx` (lines 122-188): build the patient
from the submitted values with the generated `id` and captured `now`,
run the parameterized INSERT, and on success broadcast `patient-added`
carrying the id.  A failed insert is caught (toast only), leaving the
state unchanged. -/
def onSubmit (s : SubmitState) (v : PatientFormValues) (id now : String) :
    SubmitState :=
  let patient := mkPatient id now v
  let params := patientToSqlParams patient
  match insertPatient s.patients params with
  | Except.ok table =>
    { patients := table
      broadcasts := s.broadcasts ++ [⟨"patient-added", some id⟩] }
  | Except.error _ => s

/-- A result row as the store hands it to the console: the column/value
pairs in column order (`Object.keys` order of the JS row object). -/
abbrev Row : Type := List (String × String)

/-- JS object property assignment `obj[key] = v`: replace the value of an
existing key in place, otherwise append the new key at the end. -/
def setKey (row : List (String × String)) (key v : String) :
    List (String × String) :=
  match row with
  | [] => [(key, v)]
  | (k, w) :: rest =>
    if k = key then (key, v) :: rest else (k, w) :: setKey rest key v

/-- `formatColumnHeader` applied to a single underscore-separated word:
`charAt(0).toUpperCase() + slice(1).toLowerCase()`. -/
def capitalizeWord (w : String) : String :=
  match w.data with
  | [] => ""
  | c :: cs => String.mk (c.toUpper :: cs.map Char.toLower)

/-- `formatColumnHeader` from `SqlConsole.tsx`: split the raw column name
on underscores, title-case each word, join with spaces. -/
def formatColumnHeader (header : String) : String :=
  String.intercalate " " ((header.split (fun c => c = '_')).map capitalizeWord)

/-- The in-memory state of the SQL console view: the pieces of `useState`
in `SqlConsole.tsx` that the claims talk about. -/
structure ConsoleState where
  sql : String
  results : List Row
  isExecuting : Bool
  resultColumns : List String
  formattedHeaders : List (String × String)
  executionTime : Nat
  sqlHistory : List String
  activeTab : String
deriving DecidableEq

/-- What `db.query` resolves to: `rows` is absent for statements that
return no row set (the `result.rows` null branch), and `rowCount` is the
affected-row count when the store reports one. -/
structure QueryRes where
  rows : Option (List Row)
  rowCount : Option Nat

/-- The per-row post-processing of `executeQuery`: when the row has a
truthy `date_of_birth` value, attach the derived `age` property.
`parseDate` stands for the external `new Date(string)` component
extraction and `today` for the ambient current date. -/
def processRow (today : SimpleDate) (parseDate : String → SimpleDate)
    (row : Row) : Row :=
  match row.lookup "date_of_birth" with
  | some dobStr =>
    if dobStr ≠ "" then
      setKey row "age" (toString (calculateAge (parseDate dobStr) today))
    else row
  | none => row

/-- The formatted-header map of `executeQuery`: one entry per column via
`formatColumnHeader`, plus `age ↦ Age` when a birth-date column is
present. -/
def buildHeaders (columns : List String) : List (String × String) :=
  let base := columns.foldl (fun acc c => setKey acc c (formatColumnHeader c)) []
  if "date_of_birth" ∈ columns then setKey base "age" "Age" else base

/-- `executeQuery` from `SqlConsole.tsx` (lines 153-271) as a transition
on the console state.  The transition is driven by the outcome of the
`db.query(sql)` call (`Except.error` = the store threw); `execMs` is the
measured execution time, set only after the query resolves.  The guard
reproduces the early return on blank SQL; the store-side effects of the
success branches (persisting or deleting saved results) live in the
store, not in this state. -/
def executeQuery (today : SimpleDate) (parseDate : String → SimpleDate)
    (execMs : Nat) (s : ConsoleState) (outcome : Except String QueryRes) :
    ConsoleState :=
  if s.sql.trim = "" then s
  else
    match outcome with
    | Except.error _ => { s with isExecuting := false }
    | Except.ok result =>
      let s1 := { s with executionTime := execMs }
      let s2 :=
        match result.rows with
        | some (row0 :: rest) =>
          let rows := row0 :: rest
          let columns := row0.map Prod.fst
          { s1 with
            formattedHeaders := buildHeaders columns
            results := rows.map (processRow today parseDate)
            resultColumns := reorderColumns columns }
        | some [] =>
          { s1 with resultColumns := [], formattedHeaders := [], results := [] }
        | none =>
          { s1 with
            resultColumns := ["rowCount"]
            formattedHeaders := [("rowCount", "Row Count")]
            results := [[("rowCount",
              match result.rowCount with
              | some n => if n ≠ 0 then toString n else "Success"
              | none => "Success")]] }
      { s2 with
        sqlHistory := updateHistory s2.sqlHistory s.sql
        activeTab := "results"
        isExecuting := false }

/-- The tail of `loadSavedData` in `src/components/sql/SqlConsole.tsx`
after the history step: hydrate the SQL text (or its default), then, when
all three of `last_results`/`last_columns`/`last_headers` are stored,
parse and set them in order.  All of this still runs inside the single
outer try/catch, so a failing parse abandons the remaining steps while
keeping what was already set. -/
def loadV1AfterHistory (store : String → Option String)
    (parseList : String → Option (List String))
    (parseRows : String → Option (List Row))
    (parseHeaders : String → Option (List (String × String)))
    (s : ConsoleState) : ConsoleState :=
  let s1 :=
    match store "last_query" with
    | some q => { s with sql := q }
    | none => { s with sql := "SELECT * FROM patients;" }
  match store "last_results", store "last_columns", store "last_headers" with
  | some rv, some cv, some hv =>
    (match parseRows rv with
     | none => s1
     | some rs =>
       let s2 := { s1 with results := rs }
       match parseList cv with
       | none => s2
       | some cs =>
         let s3 := { s2 with resultColumns := cs }
         match parseHeaders hv with
         | none => s3
         | some hs => { s3 with formattedHeaders := hs })
  | _, _, _ => s1

/-- `loadSavedData` from `src/components/sql/SqlConsole.tsx` (lines
48-93).  The whole body is one try/catch and the `sql_history` row is
read and `JSON.parse`d first, so a malformed history value throws before
anything else is hydrated.  `store` is the `sql_settings` lookup, and the
`parse*` arguments model the external `JSON.parse` at each call site
(`none` = the parse throws). -/
def loadSavedDataV1 (store : String → Option String)
    (parseList : String → Option (List String))
    (parseRows : String → Option (List Row))
    (parseHeaders : String → Option (List (String × String)))
    (s0 : ConsoleState) : ConsoleState :=
  match store "sql_history" with
  | some hv =>
    (match parseList hv with
     | none => s0
     | some h =>
       loadV1AfterHistory store parseList parseRows parseHeaders
         { s0 with sqlHistory := h })
  | none => loadV1AfterHistory store parseList parseRows parseHeaders s0

/-- `loadSavedData` from `unnamed/part_001` (lines 60-121): the SQL text
is hydrated first, the three result fields are parsed inside their own
try/catch, and the history is parsed inside another, so one malformed
value only skips the assignments remaining in its own inner block. -/
def loadSavedDataV2 (store : String → Option String)
    (parseList : String → Option (List String))
    (parseRows : String → Option (List Row))
    (parseHeaders : String → Option (List (String × String)))
    (s0 : ConsoleState) : ConsoleState :=
  let s1 :=
    match store "last_query" with
    | some q => { s0 with sql := q }
    | none => { s0 with sql := "SELECT * FROM patients;" }
  let s2 :=
    match store "last_results", store "last_columns", store "last_headers" with
    | some rv, some cv, some hv =>
      (match parseRows rv with
       | none => s1
       | some rs =>
         let t := { s1 with results := rs }
         match parseList cv with
         | none => t
         | some cs =>
           let u := { t with resultColumns := cs }
           match parseHeaders hv with
           | none => u
           | some hs => { u with formattedHeaders := hs })
    | _, _, _ => s1
  match store "sql_history" with
  | some hv =>
    (match parseList hv with
     | none => s2
     | some h => { s2 with sqlHistory := h })
  | none => s2

/-- The autosave delay of the SQL console (`setTimeout(..., 500)` in
`unnamed/part_001`, lines 123-133), in milliseconds. -/
def debounceDelay : Nat := 500

/-- One re-run of the autosave effect for a new SQL text `edit.2`
arriving at time `edit.1` (ms): a pending timer whose fire time has
already passed fired before this edit, producing a write of the pending
value; otherwise the effect cleanup (`clearTimeout`) cancels it.  The
effect body then schedules a new save for `edit.1 + debounceDelay` only
under the source's `if (sql && db)` guard — the store handle being
present here, only when the new text is truthy (non-empty); editing the
text to empty cancels the pending write and schedules nothing.  Returns
the writes emitted and the new pending timer. -/
def debounceStep (pending : Option (Nat × String)) (edit : Nat × String) :
    List String × Option (Nat × String) :=
  let fired : List String :=
    match pending with
    | none => []
    | some (fireAt, v) => if fireAt ≤ edit.1 then [v] else []
  if edit.2 ≠ "" then (fired, some (edit.1 + debounceDelay, edit.2))
  else (fired, none)

/-- The persisted writes produced by a timestamped sequence of edits to
the SQL text, followed by a quiet period of at least the debounce delay
(so the final pending timer fires). -/
def debounceWrites (edits : List (Nat × String)) : List String :=
  let fold :=
    edits.foldl
      (fun (acc : List String × Option (Nat × String)) e =>
        let step := debounceStep acc.2 e
        (acc.1 ++ step.1, step.2))
      ([], none)
  fold.1 ++ (match fold.2 with
             | some (_, v) => [v]
             | none => [])

/-- Every consecutive pair of edits is closer together than the debounce
delay, so each edit arrives while the previous save is still pending. -/
def withinDelay : List (Nat × String) → Prop
  | [] => True
  | [_] => True
  | (t1, _) :: (t2, v2) :: rest =>
    t2 < t1 + debounceDelay ∧ withinDelay ((t2, v2) :: rest)

/-- The patient form autosave (`PatientForm.tsx`, lines 85-98): the
`form.watch` subscription calls `saveFormData` on every change event,
and `saveFormData` immediately writes the serialized values to local
storage under `patient_form_data` — there is no timer.  Given the watched
change values in order, returns the final storage contents and the
sequence of `setItem` writes performed. -/
def formWatchRun (storage : List (String × String)) (edits : List String) :
    List (String × String) × List String :=
  edits.foldl
    (fun (acc : List (String × String) × List String) v =>
      (setKey acc.1 "patient_form_data" v, acc.2 ++ [v]))
    (storage, [])

/-- Every site at which the application itself issues SQL to the embedded
store.  Each constructor is one `db.query`/`db.exec` call site; the one
statement whose text is not fixed in the source is the console`s
`db.query(sql)` on the user-entered text, carried verbatim by
`consoleUserQuery`. -/
inductive AppQuery where
  | createPatientsTable
  | createFormPersistenceTable
  | createSqlSettingsTable
  | selectSetting
  | selectFormData
  | dashboardCountPatients
  | dashboardCountRecent
  | insertPatientStmt
  | upsertFormPersistence
  | upsertSqlSettings
  | deleteSavedResults
  | deleteFormData
  | consoleUserQuery (sql : String)
deriving DecidableEq

/-- The SQL text each call site sends to the store, copied from the
source templates (positional parameters included). -/
def issuedSql : AppQuery → String
  | AppQuery.createPatientsTable =>
    "CREATE TABLE IF NOT EXISTS patients (\n  id TEXT PRIMARY KEY,\n  first_name TEXT NOT NULL,\n  last_name TEXT NOT NULL,\n  date_of_birth TEXT NOT NULL,\n  gender TEXT NOT NULL,\n  email TEXT,\n  phone TEXT,\n  address TEXT,\n  insurance_provider TEXT,\n  insurance_number TEXT,\n  medical_conditions TEXT,\n  medications TEXT,\n  allergies TEXT,\n  created_at TEXT NOT NULL,\n  updated_at TEXT NOT NULL\n);"
  | AppQuery.createFormPersistenceTable =>
    "CREATE TABLE IF NOT EXISTS form_persistence (\n  form_id TEXT PRIMARY KEY,\n  form_data TEXT NOT NULL,\n  updated_at TEXT NOT NULL\n);"
  | AppQuery.createSqlSettingsTable =>
    "CREATE TABLE IF NOT EXISTS sql_settings (\n  key TEXT PRIMARY KEY,\n  value TEXT NOT NULL,\n  updated_at TEXT NOT NULL\n);"
  | AppQuery.selectSetting =>
    "SELECT value FROM sql_settings WHERE key = $1"
  | AppQuery.selectFormData =>
    "SELECT form_data FROM form_persistence WHERE form_id = $1"
  | AppQuery.dashboardCountPatients =>
    "SELECT COUNT(*) FROM patients"
  | AppQuery.dashboardCountRecent =>
    "SELECT COUNT(*) FROM patients WHERE created_at > $1"
  | AppQuery.insertPatientStmt =>
    "INSERT INTO patients (\n  id, first_name, last_name, date_of_birth, gender,\n  email, phone, address, insurance_provider, insurance_number,\n  medical_conditions, medications, allergies, created_at, updated_at\n) VALUES (\n  $1, $2, $3, $4, $5, $6, $7, $8, $9, $10, $11, $12, $13, $14, $15\n)"
  | AppQuery.upsertFormPersistence =>
    "INSERT INTO form_persistence (form_id, form_data, updated_at)\nVALUES ($1, $2, $3)\nON CONFLICT (form_id)\nDO UPDATE SET form_data = $2, updated_at = $3"
  | AppQuery.upsertSqlSettings =>
    "INSERT INTO sql_settings (key, value, updated_at)\nVALUES ($1, $2, $3)\nON CONFLICT (key)\nDO UPDATE SET value = $2, updated_at = $3"
  | AppQuery.deleteSavedResults =>
    "DELETE FROM sql_settings\nWHERE key IN ($1, $2, $3)"
  | AppQuery.deleteFormData =>
    "DELETE FROM form_persistence WHERE form_id = $1"
  | AppQuery.consoleUserQuery sql => sql

/-- Whitespace for tokenizing a SQL statement. -/
def isSqlSpace (c : Char) : Bool :=
  c = ' ' ∨ c = '\n' ∨ c = '\t' ∨ c = '\r'

/-- Split a character stream into maximal whitespace-free words;
`acc` holds the characters of the current word in reverse. -/
def splitWordsAux : List Char → List Char → List String
  | [], acc => if acc.isEmpty then [] else [String.mk acc.reverse]
  | c :: cs, acc =>
    if isSqlSpace c then
      if acc.isEmpty then splitWordsAux cs []
      else String.mk acc.reverse :: splitWordsAux cs []
    else splitWordsAux cs (c :: acc)

/-- The statement split into uppercased words. -/
def sqlWords (s : String) : List String :=
  (splitWordsAux s.data []).map
    (fun w => String.mk (w.data.map Char.toUpper))

/-- Whether a statement is an UPDATE or a DELETE whose target is the
given table (table name uppercased). -/
def isUpdateOrDeleteOn (table : String) (sql : String) : Bool :=
  match sqlWords sql with
  | "UPDATE" :: t :: _ => t = table
  | "DELETE" :: "FROM" :: t :: _ => t = table
  | _ => false

/-- Concrete `sql_settings` contents for exercising console hydration: a
malformed `sql_history` value alongside a well-formed saved query. -/
def c7Store (key : String) : Option String :=
  if key = "sql_history" then some "not-json"
  else if key = "last_query" then some "SELECT 1"
  else none

/-- Concrete stand-in for `JSON.parse` into a string list: the malformed
marker fails, anything else parses. -/
def c7ParseList (v : String) : Option (List String) :=
  if v = "not-json" then none else some [v]

/-- Concrete stand-in for `JSON.parse` into result rows. -/
def c7ParseRows (v : String) : Option (List Row) :=
  if v = "not-json" then none else some []

/-- Concrete stand-in for `JSON.parse` into a header map. -/
def c7ParseHeaders (v : String) : Option (List (String × String)) :=
  if v = "not-json" then none else some []

/-- The console state before hydration: the `useState` defaults of
`SqlConsole.tsx`. -/
def c7Init : ConsoleState :=
  { sql := ""
    results := []
    isExecuting := false
    resultColumns := []
    formattedHeaders := []
    executionTime := 0
    sqlHistory := []
    activeTab := "results" }

/-! ### Helper lemmas -/

theorem upsert_upsert (t : KVTable) (k v t1 t2 : String) :
    upsert (upsert t k v t1) k v t2 = upsert t k v t2 := by
  induction t with
  | nil => simp [upsert]
  | cons p rest ih =>
    obtain ⟨k0, r0⟩ := p
    by_cases h : k0 = k
    · simp [upsert, h]
    · simp [upsert, h, ih]

theorem eraseTimes_upsert (t : KVTable) (k v now : String) :
    eraseTimes (upsert t k v now) = setKey (eraseTimes t) k v := by
  induction t with
  | nil => simp [upsert, eraseTimes, setKey]
  | cons p rest ih =>
    obtain ⟨k0, r0⟩ := p
    by_cases h : k0 = k
    · simp [upsert, h, eraseTimes, setKey]
    · simp [upsert, h, eraseTimes, setKey, ih]
      simpa [eraseTimes] using ih

theorem countKey_upsert (t : KVTable) (k v now : String)
    (h : (tableKeys t).Nodup) : countKey (upsert t k v now) k = 1 := by
  induction t with
  | nil => simp [upsert, countKey]
  | cons p rest ih =>
    obtain ⟨k0, r0⟩ := p
    simp only [tableKeys, List.map_cons, List.nodup_cons] at h
    by_cases hk : k0 = k
    · subst hk
      have hz : rest.countP (fun p => decide (p.1 = k0)) = 0 := by
        rw [List.countP_eq_zero]
        intro a ha
        simp only [decide_eq_true_eq]
        intro hak
        exact h.1 (hak ▸ List.mem_map_of_mem Prod.fst ha)
      simp [upsert, countKey, List.countP_cons, hz]
    · have := ih h.2
      simp only [countKey] at this
      simp [upsert, hk, countKey, List.countP_cons, this]

theorem tableKeys_upsert (t : KVTable) (k v now : String) :
    tableKeys (upsert t k v now) =
      if k ∈ tableKeys t then tableKeys t else tableKeys t ++ [k] := by
  induction t with
  | nil => simp [upsert, tableKeys]
  | cons p rest ih =>
    obtain ⟨k0, r0⟩ := p
    by_cases h : k0 = k
    · simp [upsert, h, tableKeys]
    · have hne : ¬(k = k0) := fun hc => h hc.symm
      simp only [upsert, if_neg h, tableKeys, List.map_cons]
      simp only [tableKeys] at ih
      rw [ih]
      by_cases hm : k ∈ List.map Prod.fst rest
      · simp [hm, hne, List.mem_cons]
      · simp [hm, hne, List.mem_cons]

theorem nodup_tableKeys_upsert (t : KVTable) (k v now : String)
    (h : (tableKeys t).Nodup) : (tableKeys (upsert t k v now)).Nodup := by
  rw [tableKeys_upsert]
  by_cases hm : k ∈ tableKeys t
  · simpa [hm] using h
  · simp only [hm, if_false]
    simpa [List.nodup_append, hm] using h

/-! ### Claim theorems -/

/-- C2: the derived age is the calendar-year difference, decremented by
one exactly when the current month precedes the birth month or the months
are equal and the current day precedes the birth day; in particular for
birth date 2000-06-15 the age is 23 on 2024-06-14 and 24 on 2024-06-15. -/
theorem claim_C2_age_derivation (dob today : SimpleDate) :
    calculateAge dob today =
      (today.year - dob.year) -
        (if today.month < dob.month ∨
            (today.month = dob.month ∧ today.day < dob.day)
         then 1 else 0)
    ∧ calculateAge ⟨2000, 6, 15⟩ ⟨2024, 6, 14⟩ = 23
    ∧ calculateAge ⟨2000, 6, 15⟩ ⟨2024, 6, 15⟩ = 24 := by
  refine ⟨?_, by decide, by decide⟩
  unfold calculateAge
  dsimp only
  split_ifs with h1 h2 <;> omega

/-- C10: with an unknown table name, or without a store handle,
`saveToPGlite` performs no write at all and succeeds, leaving the store
exactly as it was. -/
theorem claim_C10_save_frame (s : StoreState) (tableName key value now : String) :
    (tableName ≠ "form_persistence" → tableName ≠ "sql_settings" →
      saveToPGlite (some s) tableName key value now = some s)
    ∧ saveToPGlite none tableName key value now = none := by
  constructor
  · intro h1 h2
    simp [saveToPGlite, h1, h2]
  · rfl

/-- Witness for C10 at the table name `patients` and the null handle. -/
theorem claim_C10_witness :
    saveToPGlite (some ⟨[], []⟩) "patients" "k" "v" "t" = some ⟨[], []⟩
    ∧ saveToPGlite none "patients" "k" "v" "t" = none :=
  ⟨(claim_C10_save_frame ⟨[], []⟩ "patients" "k" "v" "t").1 (by decide) (by decide),
   (claim_C10_save_frame ⟨[], []⟩ "patients" "k" "v" "t").2⟩

/-- C5: saving the same `(table, key, value)` twice leaves the store in
the state of the single later save; up to the `updated_at` timestamp the
state equals that after one call; and with unique primary keys, one save
leaves exactly one row for the key (and keys stay unique), so repeated
saves never create a second row. -/
theorem claim_C5_save_idempotent (s : StoreState)
    (tableName key value t1 t2 : String) :
    (saveToPGlite (saveToPGlite (some s) tableName key value t1)
        tableName key value t2 =
      saveToPGlite (some s) tableName key value t2)
    ∧ (Option.map
        (fun st => (eraseTimes st.formPersistence, eraseTimes st.sqlSettings))
        (saveToPGlite (some s) tableName key value t1) =
       Option.map
        (fun st => (eraseTimes st.formPersistence, eraseTimes st.sqlSettings))
        (saveToPGlite (some s) tableName key value t2))
    ∧ (tableName = "form_persistence" → (tableKeys s.formPersistence).Nodup →
        ∀ sA, saveToPGlite (some s) tableName key value t1 = some sA →
          countKey sA.formPersistence key = 1 ∧
          (tableKeys sA.formPersistence).Nodup)
    ∧ (tableName = "sql_settings" → (tableKeys s.sqlSettings).Nodup →
        ∀ sA, saveToPGlite (some s) tableName key value t1 = some sA →
          countKey sA.sqlSettings key = 1 ∧
          (tableKeys sA.sqlSettings).Nodup) := by
  refine ⟨?_, ?_, ?_, ?_⟩
  · by_cases h1 : tableName = "form_persistence"
    · simp [saveToPGlite, h1, upsert_upsert]
    · by_cases h2 : tableName = "sql_settings"
      · simp [saveToPGlite, h1, h2, upsert_upsert]
      · simp [saveToPGlite, h1, h2]
  · by_cases h1 : tableName = "form_persistence"
    · simp [saveToPGlite, h1, eraseTimes_upsert]
    · by_cases h2 : tableName = "sql_settings"
      · simp [saveToPGlite, h1, h2, eraseTimes_upsert]
      · simp [saveToPGlite, h1, h2]
  · intro h1 hnd sA hsA
    subst h1
    simp [saveToPGlite] at hsA
    subst hsA
    exact ⟨countKey_upsert _ _ _ _ hnd, nodup_tableKeys_upsert _ _ _ _ hnd⟩
  · intro h2 hnd sA hsA
    subst h2
    simp [saveToPGlite] at hsA
    subst hsA
    exact ⟨countKey_upsert _ _ _ _ hnd, nodup_tableKeys_upsert _ _ _ _ hnd⟩

/-- Witness for C5: a concrete double save into `sql_settings`. -/
theorem claim_C5_witness :
    (saveToPGlite (saveToPGlite (some ⟨[], []⟩) "sql_settings" "k" "v" "t1")
        "sql_settings" "k" "v" "t2" =
      saveToPGlite (some ⟨[], []⟩) "sql_settings" "k" "v" "t2")
    ∧ countKey ((⟨[], [("k", ⟨"v", "t1"⟩)]⟩ : StoreState)).sqlSettings "k" = 1 := by
  have h := claim_C5_save_idempotent ⟨[], []⟩ "sql_settings" "k" "v" "t1" "t2"
  refine ⟨h.1, ?_⟩
  have h4 := h.2.2.2 rfl (by simp [tableKeys]) ⟨[], [("k", ⟨"v", "t1"⟩)]⟩ (by rfl)
  exact h4.1

/-- C6: when the store's query call throws, `executeQuery` leaves every
piece of in-memory console state — results, result columns, formatted
headers, SQL history, execution time, and the SQL text itself — at its
previous value; only the transient executing flag is lowered. -/
theorem claim_C6_query_failure_preserves_state (today : SimpleDate)
    (parseDate : String → SimpleDate) (execMs : Nat) (s : ConsoleState)
    (e : String) :
    (executeQuery today parseDate execMs s (Except.error e)).results =
      s.results
    ∧ (executeQuery today parseDate execMs s (Except.error e)).resultColumns =
        s.resultColumns
    ∧ (executeQuery today parseDate execMs s (Except.error e)).formattedHeaders =
        s.formattedHeaders
    ∧ (executeQuery today parseDate execMs s (Except.error e)).sqlHistory =
        s.sqlHistory
    ∧ (executeQuery today parseDate execMs s (Except.error e)).executionTime =
        s.executionTime
    ∧ (executeQuery today parseDate execMs s (Except.error e)).sql = s.sql := by
  unfold executeQuery
  by_cases h : s.sql.trim = "" <;> simp [h]

theorem insertIdx_get?_after (l : List String) (i : Nat) (a : String)
    (h : i < l.length) :
    (l.insertIdx (i + 1) a).get? i = l.get? i ∧
    (l.insertIdx (i + 1) a).get? (i + 1) = some a := by
  induction l generalizing i with
  | nil => exact absurd h (by simp)
  | cons x xs ih =>
    cases i with
    | zero => simp [List.insertIdx_succ_cons, List.insertIdx_zero]
    | succ n =>
      have hn : n < xs.length := by simpa using h
      have hx := ih n hn
      simp only [List.get?_eq_getElem?] at hx
      simp [List.insertIdx_succ_cons, hx.1, hx.2]

/-- C4: when the result columns contain `date_of_birth`, the displayed
column order places the derived `age` column immediately after `gender`
if a gender column is present, and at the very end otherwise; without a
`date_of_birth` column the column order is untouched. -/
theorem claim_C4_age_column_placement (columns : List String) :
    ("date_of_birth" ∈ columns → "gender" ∈ columns →
      ∃ i, (reorderColumns columns).get? i = some "gender" ∧
           (reorderColumns columns).get? (i + 1) = some "age")
    ∧ ("date_of_birth" ∈ columns → "gender" ∉ columns →
        reorderColumns columns = columns ++ ["age"])
    ∧ ("date_of_birth" ∉ columns → reorderColumns columns = columns) := by
  refine ⟨?_, ?_, ?_⟩
  · intro hd hg
    unfold reorderColumns
    rw [if_pos ⟨hd, hg⟩]
    dsimp only
    have hgf : "gender" ∈ columns.filter (fun c => c ≠ "age") :=
      List.mem_filter.mpr ⟨hg, by decide⟩
    have hlt : (columns.filter (fun c => c ≠ "age")).indexOf "gender" <
        (columns.filter (fun c => c ≠ "age")).length :=
      List.indexOf_lt_length.mpr hgf
    rw [if_pos hlt]
    refine ⟨(columns.filter (fun c => c ≠ "age")).indexOf "gender", ?_, ?_⟩
    · rw [(insertIdx_get?_after _ _ _ hlt).1]
      exact List.indexOf_get? hgf
    · exact (insertIdx_get?_after _ _ _ hlt).2
  · intro hd hg
    unfold reorderColumns
    rw [if_neg (fun hc => hg hc.2), if_pos hd]
  · intro hd
    unfold reorderColumns
    rw [if_neg (fun hc => hd hc.1), if_neg hd]

/-- Witness for C4 at three concrete column lists, one per branch. -/
theorem claim_C4_witness :
    (∃ i, (reorderColumns ["date_of_birth", "gender"]).get? i = some "gender" ∧
          (reorderColumns ["date_of_birth", "gender"]).get? (i + 1) = some "age")
    ∧ reorderColumns ["id", "date_of_birth"] = ["id", "date_of_birth"] ++ ["age"]
    ∧ reorderColumns ["id"] = ["id"] :=
  ⟨(claim_C4_age_column_placement ["date_of_birth", "gender"]).1
      (by decide) (by decide),
   (claim_C4_age_column_placement ["id", "date_of_birth"]).2.1
      (by decide) (by decide),
   (claim_C4_age_column_placement ["id"]).2.2 (by decide)⟩

theorem updateHistory_of_mem (prev : List String) (q : String)
    (h : q ∈ prev) : updateHistory prev q = prev := by
  unfold updateHistory
  rw [if_pos h]

theorem mem_updateHistory (prev : List String) (q : String) :
    q ∈ updateHistory prev q := by
  unfold updateHistory
  by_cases h : q ∈ prev
  · simp [h]
  · rw [if_neg h]
    dsimp only
    have hle : (prev ++ [q]).length - 10 ≤ prev.length := by
      simp only [List.length_append, List.length_cons, List.length_nil]
      omega
    rw [List.drop_append_of_le_length hle]
    simp

theorem drop_ten_append (xs ys : List String) :
    (xs.drop (xs.length - 10) ++ ys).drop
        ((xs.drop (xs.length - 10) ++ ys).length - 10) =
      (xs ++ ys).drop ((xs ++ ys).length - 10) := by
  rw [List.drop_append_eq_append_drop, List.drop_append_eq_append_drop,
      List.drop_drop]
  simp only [List.length_append, List.length_drop]
  congr 1
  · congr 1
    omega
  · congr 1
    omega

theorem foldl_updateHistory_general (qs : List String) :
    ∀ acc : List String, qs.Nodup → (∀ q ∈ qs, q ∉ acc) → acc.length ≤ 10 →
      List.foldl updateHistory acc qs =
        (acc ++ qs).drop ((acc ++ qs).length - 10) := by
  induction qs with
  | nil =>
    intro acc _ _ hlen
    simp only [List.foldl_nil, List.append_nil]
    rw [Nat.sub_eq_zero_of_le hlen, List.drop_zero]
  | cons q rest ih =>
    intro acc hnd hdisj hlen
    have hq : q ∉ acc := hdisj q (List.mem_cons_self q rest)
    have hstep : updateHistory acc q =
        (acc ++ [q]).drop ((acc ++ [q]).length - 10) := by
      unfold updateHistory
      rw [if_neg hq]
    rw [List.foldl_cons, hstep]
    have hnd2 : rest.Nodup := hnd.of_cons
    have hqr : q ∉ rest := (List.nodup_cons.mp hnd).1
    have hdisj2 : ∀ r ∈ rest,
        r ∉ (acc ++ [q]).drop ((acc ++ [q]).length - 10) := by
      intro r hr hmem
      have : r ∈ acc ++ [q] := List.drop_subset _ _ hmem
      rcases List.mem_append.mp this with h1 | h1
      · exact hdisj r (List.mem_cons_of_mem q hr) h1
      · rw [List.mem_singleton.mp h1] at hr
        exact hqr hr
    have hlen2 : ((acc ++ [q]).drop ((acc ++ [q]).length - 10)).length ≤ 10 := by
      simp only [List.length_drop, List.length_append, List.length_cons,
        List.length_nil]
      omega
    rw [ih _ hnd2 hdisj2 hlen2]
    rw [drop_ten_append (acc ++ [q]) rest]
    rw [List.append_assoc]
    rfl

/-- C3: a query string already in the history leaves it unchanged;
otherwise it is appended and everything but the last 10 entries is
dropped from the front (so when the appended length exceeds 10, exactly
10 remain); hence running the same query twice adds one entry, and a run
of pairwise-distinct queries retains only the most recent 10. -/
theorem claim_C3_history_dedup_and_cap (prev : List String) (q : String) :
    (q ∈ prev → updateHistory prev q = prev)
    ∧ (q ∉ prev → updateHistory prev q =
        (prev ++ [q]).drop ((prev ++ [q]).length - 10))
    ∧ (q ∉ prev → 10 < prev.length + 1 →
        (updateHistory prev q).length = 10)
    ∧ updateHistory (updateHistory prev q) q = updateHistory prev q
    ∧ (∀ qs : List String, qs.Nodup →
        List.foldl updateHistory [] qs = qs.drop (qs.length - 10)) := by
  refine ⟨?_, ?_, ?_, ?_, ?_⟩
  · exact updateHistory_of_mem prev q
  · intro h
    unfold updateHistory
    rw [if_neg h]
  · intro h hlen
    unfold updateHistory
    rw [if_neg h]
    dsimp only
    simp only [List.length_drop, List.length_append, List.length_cons,
      List.length_nil]
    omega
  · exact updateHistory_of_mem _ q (mem_updateHistory prev q)
  · intro qs hnd
    have := foldl_updateHistory_general qs [] hnd (by simp) (by simp)
    simpa using this

/-- Witness for C3: the dedup branch, the append branch, the cap at an
eleventh distinct query, and a distinct-query fold. -/
theorem claim_C3_witness :
    updateHistory ["a"] "a" = ["a"]
    ∧ updateHistory ["a"] "b" =
        (["a"] ++ ["b"]).drop ((["a"] ++ ["b"]).length - 10)
    ∧ (updateHistory ["q0", "q1", "q2", "q3", "q4", "q5", "q6", "q7", "q8",
        "q9"] "q10").length = 10
    ∧ List.foldl updateHistory [] ["a", "b"] =
        ["a", "b"].drop (["a", "b"].length - 10) :=
  ⟨(claim_C3_history_dedup_and_cap ["a"] "a").1 (by decide),
   (claim_C3_history_dedup_and_cap ["a"] "b").2.1 (by decide),
   (claim_C3_history_dedup_and_cap
      ["q0", "q1", "q2", "q3", "q4", "q5", "q6", "q7", "q8", "q9"] "q10").2.2.1
      (by decide) (by decide),
   (claim_C3_history_dedup_and_cap [] "x").2.2.2.2 ["a", "b"] (by decide)⟩

/-- C1: submitting a valid patient form with a fresh generated id inserts
exactly one new row whose column values are the submitted field values
(optional fields defaulted to the empty string) with equal created and
updated timestamps, publishes one `patient-added` notification carrying
the new id, and leaves every pre-existing patients row in place. -/
theorem claim_C1_submit_inserts_one_row (s : SubmitState)
    (v : PatientFormValues) (id now : String)
    (_hvalid : validPatientForm v)
    (hfresh : ∀ row ∈ s.patients, row.head? ≠ some id) :
    (onSubmit s v id now).patients =
      s.patients ++ [patientToSqlParams (mkPatient id now v)]
    ∧ patientToSqlParams (mkPatient id now v) =
        [id, v.firstName, v.lastName, v.dateOfBirth, v.gender,
         v.email.getD "", v.phone, v.address, v.insuranceProvider.getD "",
         v.insuranceNumber.getD "", v.medicalConditions, v.medications,
         v.allergies.getD "", now, now]
    ∧ (mkPatient id now v).createdAt = (mkPatient id now v).updatedAt
    ∧ (onSubmit s v id now).broadcasts =
        s.broadcasts ++ [⟨"patient-added", some id⟩]
    ∧ (onSubmit s v id now).patients.length = s.patients.length + 1
    ∧ ∀ row ∈ s.patients, row ∈ (onSubmit s v id now).patients := by
  have hhead : (patientToSqlParams (mkPatient id now v)).head? = some id := rfl
  have hany : s.patients.any
      (fun row => row.head? = (patientToSqlParams (mkPatient id now v)).head?) =
      false := by
    rw [List.any_eq_false]
    intro row hrow
    rw [hhead]
    simpa using hfresh row hrow
  have hins : insertPatient s.patients (patientToSqlParams (mkPatient id now v)) =
      Except.ok (s.patients ++ [patientToSqlParams (mkPatient id now v)]) := by
    unfold insertPatient
    rw [if_neg (by simp [hany])]
  refine ⟨?_, rfl, rfl, ?_, ?_, ?_⟩
  · simp only [onSubmit, hins]
  · simp only [onSubmit, hins]
  · simp only [onSubmit, hins]
    simp
  · intro row hrow
    simp only [onSubmit, hins]
    exact List.mem_append_left _ hrow

/-- Witness for C1: a concrete valid submission into an empty table. -/
theorem claim_C1_witness :
    (onSubmit ⟨[], []⟩
        ⟨"Ada", "Lovelace", "2000-06-15", "female", none, "5551234", "addr",
          none, none, "none known", "none", none⟩ "p1" "T").patients =
      [] ++ [patientToSqlParams (mkPatient "p1" "T"
        ⟨"Ada", "Lovelace", "2000-06-15", "female", none, "5551234", "addr",
          none, none, "none known", "none", none⟩)]
    ∧ (onSubmit ⟨[], []⟩
        ⟨"Ada", "Lovelace", "2000-06-15", "female", none, "5551234", "addr",
          none, none, "none known", "none", none⟩ "p1" "T").broadcasts =
      [] ++ [⟨"patient-added", some "p1"⟩] :=
  ⟨(claim_C1_submit_inserts_one_row ⟨[], []⟩
      ⟨"Ada", "Lovelace", "2000-06-15", "female", none, "5551234", "addr",
        none, none, "none known", "none", none⟩ "p1" "T"
      (by decide) (by simp)).1,
   (claim_C1_submit_inserts_one_row ⟨[], []⟩
      ⟨"Ada", "Lovelace", "2000-06-15", "female", none, "5551234", "addr",
        none, none, "none known", "none", none⟩ "p1" "T"
      (by decide) (by simp)).2.2.2.1⟩

/-- Counterexample for C9: the console's `db.query(sql)` call executes
the user-entered text verbatim, so the application does issue a DELETE
against the patients table when that is what the user typed — refuting
the claim that no application-performed operation ever does. -/
theorem claim_C9_counterexample :
    ¬ (∀ op : AppQuery,
        isUpdateOrDeleteOn "PATIENTS" (issuedSql op) = false) := by
  intro hall
  have hx := hall (AppQuery.consoleUserQuery "DELETE FROM patients")
  have hy : isUpdateOrDeleteOn "PATIENTS"
      (issuedSql (AppQuery.consoleUserQuery "DELETE FROM patients")) = true := by
    decide
  rw [hx] at hy
  cases hy

/-- C9 amended: no fixed application-issued SQL statement — table
creation, hydration and dashboard SELECTs, the patients INSERT, the two
upserts, or the DELETEs on `sql_settings`/`form_persistence` — is an
UPDATE or DELETE against the patients table; only the console statement
built verbatim from user-entered text can be. -/
theorem claim_C9_no_builtin_update_delete (op : AppQuery)
    (h : ∀ sql, op ≠ AppQuery.consoleUserQuery sql) :
    isUpdateOrDeleteOn "PATIENTS" (issuedSql op) = false := by
  cases op with
  | consoleUserQuery sql => exact absurd rfl (h sql)
  | createPatientsTable => decide
  | createFormPersistenceTable => decide
  | createSqlSettingsTable => decide
  | selectSetting => decide
  | selectFormData => decide
  | dashboardCountPatients => decide
  | dashboardCountRecent => decide
  | insertPatientStmt => decide
  | upsertFormPersistence => decide
  | upsertSqlSettings => decide
  | deleteSavedResults => decide
  | deleteFormData => decide

/-- Witness for C9 at the patients INSERT statement. -/
theorem claim_C9_witness :
    isUpdateOrDeleteOn "PATIENTS" (issuedSql AppQuery.insertPatientStmt) =
      false :=
  claim_C9_no_builtin_update_delete AppQuery.insertPatientStmt
    (fun _ hc => AppQuery.noConfusion hc)

theorem debounce_fold_within (es : List (Nat × String)) :
    ∀ (t : Nat) (v : String) (ws : List String),
      withinDelay ((t, v) :: es) →
      es.foldl
        (fun (acc : List String × Option (Nat × String)) e =>
          (acc.1 ++ (debounceStep acc.2 e).1, (debounceStep acc.2 e).2))
        (ws, if v ≠ "" then some (t + debounceDelay, v) else none) =
      (ws, if (es.getLastD (t, v)).2 ≠ "" then
             some ((es.getLastD (t, v)).1 + debounceDelay,
                   (es.getLastD (t, v)).2)
           else none) := by
  induction es with
  | nil =>
    intro t v ws _
    simp [List.getLastD]
  | cons e2 rest ih =>
    intro t v ws hw
    obtain ⟨t2, v2⟩ := e2
    obtain ⟨hlt, hw2⟩ := hw
    rw [List.foldl_cons]
    have hstep : debounceStep
        (if v ≠ "" then some (t + debounceDelay, v) else none) (t2, v2) =
        ([], if v2 ≠ "" then some (t2 + debounceDelay, v2) else none) := by
      by_cases hv : v = ""
      · by_cases hv2 : v2 = "" <;> simp [debounceStep, hv, hv2]
      · by_cases hv2 : v2 = "" <;>
          simp [debounceStep, hv, hv2,
            if_neg (by omega : ¬ (t + debounceDelay ≤ t2))]
    dsimp only
    rw [hstep]
    simp only [List.append_nil]
    rw [ih t2 v2 ws hw2, List.getLastD_cons]

theorem formWatchRun_writes_aux (edits : List String) :
    ∀ (st : List (String × String)) (w : List String),
      (edits.foldl
        (fun (acc : List (String × String) × List String) v =>
          (setKey acc.1 "patient_form_data" v, acc.2 ++ [v])) (st, w)).2 =
      w ++ edits := by
  induction edits with
  | nil =>
    intro st w
    simp
  | cons v rest ih =>
    intro st w
    rw [List.foldl_cons]
    dsimp only
    rw [ih]
    simp

theorem debounceWrites_within (t : Nat) (v : String)
    (es : List (Nat × String)) (hw : withinDelay ((t, v) :: es)) :
    debounceWrites ((t, v) :: es) =
      if (es.getLastD (t, v)).2 ≠ "" then [(es.getLastD (t, v)).2]
      else [] := by
  unfold debounceWrites
  dsimp only
  rw [List.foldl_cons]
  dsimp only
  simp only [List.nil_append]
  have hstep0 : debounceStep none (t, v) =
      ([], if v ≠ "" then some (t + debounceDelay, v) else none) := by
    by_cases hv : v = "" <;> simp [debounceStep, hv]
  rw [hstep0]
  dsimp only
  rw [debounce_fold_within es t v [] hw]
  by_cases hl : (es.getLastD (t, v)).2 = ""
  · simp only [if_neg (show ¬ (es.getLastD (t, v)).2 ≠ "" from fun h => h hl)]
    rfl
  · simp only [if_pos (show (es.getLastD (t, v)).2 ≠ "" from hl)]
    rfl

/-- C8 amended: the SQL console text is debounced — for a burst of edits
each arriving within the 500 ms delay, followed by a quiet period,
exactly one write occurs and it stores the final value when that value
is non-empty; clearing the text to empty cancels the pending write and
schedules nothing (the source's `if (sql && db)` guard), so such a burst
persists nothing.  The patient form is not debounced: its `form.watch`
subscription persists every single change value to local storage
immediately. -/
theorem claim_C8_debounce_vs_watch (e : Nat × String)
    (es : List (Nat × String)) (hw : withinDelay (e :: es))
    (storage : List (String × String)) (edits : List String) :
    ((es.getLastD e).2 ≠ "" → debounceWrites (e :: es) = [(es.getLastD e).2])
    ∧ ((es.getLastD e).2 = "" → debounceWrites (e :: es) = [])
    ∧ (formWatchRun storage edits).2 = edits := by
  obtain ⟨t, v⟩ := e
  refine ⟨?_, ?_, ?_⟩
  · intro hne
    rw [debounceWrites_within t v es hw, if_pos hne]
  · intro heq
    rw [debounceWrites_within t v es hw,
      if_neg (show ¬ (es.getLastD (t, v)).2 ≠ "" from fun h => h heq)]
  · unfold formWatchRun
    rw [formWatchRun_writes_aux]
    simp

/-- Counterexample for C8: for the patient form, a two-edit sequence
produces two persisted writes, including the intermediate keystroke
value — not the single write of the final value the claim asserts. -/
theorem claim_C8_counterexample :
    (formWatchRun [] ["a", "ab"]).2 = ["a", "ab"]
    ∧ ((formWatchRun [] ["a", "ab"]).2).length ≠ 1
    ∧ "a" ∈ (formWatchRun [] ["a", "ab"]).2 := by
  refine ⟨rfl, by decide, by decide⟩

/-- Witness for C8: a concrete two-edit burst 100 ms apart yields one
write of the final text, while the same burst ending with cleared text
persists nothing. -/
theorem claim_C8_witness :
    debounceWrites [(0, "a"), (100, "ab")] = ["ab"]
    ∧ debounceWrites [(0, "a"), (100, "")] = []
    ∧ (formWatchRun [] ["x"]).2 = ["x"] := by
  have h1 := claim_C8_debounce_vs_watch (0, "a") [(100, "ab")]
      ⟨by decide, trivial⟩ [] ["x"]
  have h2 := claim_C8_debounce_vs_watch (0, "a") [(100, "")]
      ⟨by decide, trivial⟩ [] ["x"]
  exact ⟨(h1.1 (by decide)).trans rfl, h2.2.1 rfl, h1.2.2⟩

/-- C7 amended: in the console variant whose hydration runs in one
try/catch (`SqlConsole.tsx`), a malformed `sql_history` value — read
first — aborts the whole hydration, leaving every field at its default;
in the variant with per-field try/catch (`unnamed/part_001`), a malformed
`sql_history` skips only the history hydration while the saved query
text, results, columns and headers are still hydrated. -/
theorem claim_C7_partial_hydration (store : String → Option String)
    (parseList : String → Option (List String))
    (parseRows : String → Option (List Row))
    (parseHeaders : String → Option (List (String × String)))
    (s0 : ConsoleState) (hv : String)
    (hhist : store "sql_history" = some hv) (hbad : parseList hv = none) :
    loadSavedDataV1 store parseList parseRows parseHeaders s0 = s0
    ∧ (loadSavedDataV2 store parseList parseRows parseHeaders s0).sqlHistory =
        s0.sqlHistory
    ∧ (∀ q, store "last_query" = some q →
        (loadSavedDataV2 store parseList parseRows parseHeaders s0).sql = q)
    ∧ (∀ rv cv hv2 rs cs hs,
        store "last_results" = some rv → store "last_columns" = some cv →
        store "last_headers" = some hv2 → parseRows rv = some rs →
        parseList cv = some cs → parseHeaders hv2 = some hs →
        (loadSavedDataV2 store parseList parseRows parseHeaders s0).results =
          rs
        ∧ (loadSavedDataV2 store parseList parseRows parseHeaders
            s0).resultColumns = cs
        ∧ (loadSavedDataV2 store parseList parseRows parseHeaders
            s0).formattedHeaders = hs) := by
  refine ⟨?_, ?_, ?_, ?_⟩
  · unfold loadSavedDataV1
    simp only [hhist, hbad]
  · unfold loadSavedDataV2
    simp only [hhist, hbad]
    repeat' split
    all_goals rfl
  · intro q hq
    unfold loadSavedDataV2
    simp only [hhist, hbad, hq]
    repeat' split
    all_goals rfl
  · intro rv cv hv2 rs cs hs h1 h2 h3 h4 h5 h6
    unfold loadSavedDataV2
    simp only [hhist, hbad, h1, h2, h3, h4, h5, h6]
    simp

/-- Counterexample for C7: with only the stored `sql_history` malformed
and a well-formed saved query `SELECT 1` present, the single-try console
leaves the SQL text at its default instead of hydrating it. -/
theorem claim_C7_counterexample :
    c7Store "last_query" = some "SELECT 1"
    ∧ (loadSavedDataV1 c7Store c7ParseList c7ParseRows c7ParseHeaders
        c7Init).sql = ""
    ∧ "" ≠ "SELECT 1" := by
  refine ⟨rfl, rfl, by decide⟩

/-- Witness for C7 at the concrete malformed-history store. -/
theorem claim_C7_witness :
    loadSavedDataV1 c7Store c7ParseList c7ParseRows c7ParseHeaders c7Init =
      c7Init
    ∧ (loadSavedDataV2 c7Store c7ParseList c7ParseRows c7ParseHeaders
        c7Init).sqlHistory = c7Init.sqlHistory
    ∧ (loadSavedDataV2 c7Store c7ParseList c7ParseRows c7ParseHeaders
        c7Init).sql = "SELECT 1" := by
  have h := claim_C7_partial_hydration c7Store c7ParseList c7ParseRows
      c7ParseHeaders c7Init "not-json" rfl rfl
  exact ⟨h.1, h.2.1, h.2.2.1 "SELECT 1" rfl⟩

end MediTrack
